import Mathlib

/-!
Shallow embedding of the plan/execute engine of `src/orchestrator/orchestrator.py`
and its tool registry `src/orchestrator/tools.py`.

Conventions of the embedding:
* Python dictionaries / JSON-like values are modelled by the inductive `Value`;
  dictionaries are association lists in insertion order (Python 3.7+ dicts
  preserve insertion order, and all dict literals in the source have distinct
  keys).
* The wall-clock timestamp `int(datetime.utcnow().timestamp())` that the
  planner embeds into artifact paths is passed in explicitly as a `ts : Nat`
  parameter; `created_at` is likewise modelled by that parameter.
* The external capability invocation performed by
  `asyncio.wait_for(asyncio.to_thread(tool_func, **args), timeout)` is
  modelled by a `CapResult` parameter: the call either returns a value,
  times out, or raises.  `execute_step` is then a pure function of the step,
  the capability outcome and the current history, returning the result value
  and the new history; totality of that function models the fact that the
  `try/except` clauses of the source let no exception escape.
-/

/-- JSON-like Python values (strings, ints, booleans, None, lists, dicts). -/
inductive Value where
  | str (s : String)
  | int (n : Int)
  | bool (b : Bool)
  | none
  | list (items : List Value)
  | dict (kvs : List (String × Value))
deriving Repr

/-- Dictionary lookup on a `Value` (first binding wins; dict literals in the
source have distinct keys). Non-dicts have no fields. -/
def Value.lookup (v : Value) (k : String) : Option Value :=
  match v with
  | .dict kvs => kvs.lookup k
  | _ => Option.none

/-- The names registered in `TOOL_REGISTRY` of `src/orchestrator/tools.py`. -/
def TOOL_NAMES : List String :=
  ["runs_record_event", "artifacts_write_text", "etl_run_job", "train_model", "deploy_agent"]

/-- `TaskStep` (pydantic model, orchestrator.py lines 26-32). -/
structure TaskStep where
  tool : String
  args : List (String × Value) := []
  depends_on : List Int := []
  timeout : Int := 300
  retry_count : Int := 3
deriving Repr

/-- `TaskPlan` (orchestrator.py lines 35-40); `createdAt` stands for the
`datetime.utcnow()` default, passed in as the planning timestamp. -/
structure TaskPlan where
  goal : String
  steps : List TaskStep
  metadata : List (String × Value)
  createdAt : Nat
deriving Repr

/-- One entry of `self.execution_history` (a dict in the source, with keys
tool/args/result-or-error/status/timestamp; the timestamp is external
wall-clock data and is not modelled). -/
structure HistEntry where
  tool : String
  args : List (String × Value)
  result : Option Value
  error : Option String
  status : String
deriving Repr

/- ---------------- substring matching (Python `in` on strings) ---------------- -/

/-- Boolean list-prefix test (by char equality). -/
def charsBeginWith : List Char → List Char → Bool
  | [], _ => true
  | _ :: _, [] => false
  | a :: as, b :: bs => a == b && charsBeginWith as bs

/-- Boolean list-infix test. -/
def charsHaveSub (sub : List Char) : List Char → Bool
  | [] => charsBeginWith sub []
  | c :: rest => charsBeginWith sub (c :: rest) || charsHaveSub sub rest

/-- Python's `sub in s` on strings: substring containment. -/
def strHasSub (s sub : String) : Bool :=
  charsHaveSub sub.data s.data

/-- Python's `goal.lower()` (orchestrator.py line 74), character-wise case
folding; the keyword sets the planner matches against are all ASCII, which
`Char.toLower` folds exactly as Python does. -/
def strLower (s : String) : String :=
  String.mk (s.data.map Char.toLower)

/- ---------------- json.dumps for the one dict the planner serialises ---------------- -/

/-- Lower-case hex digit. -/
def jsonHexDigit (n : Nat) : Char :=
  if n < 10 then Char.ofNat (48 + n) else Char.ofNat (87 + n)

/-- Four lower-case hex digits, as in Python's `\uXXXX` escapes. -/
def jsonHex4 (n : Nat) : String :=
  String.mk [jsonHexDigit (n / 4096 % 16), jsonHexDigit (n / 256 % 16),
             jsonHexDigit (n / 16 % 16), jsonHexDigit (n % 16)]

/-- Escape one character the way Python's `json.dumps` (default
`ensure_ascii=True`) escapes characters inside a JSON string. -/
def jsonEscChar (c : Char) : String :=
  if c = '"' then "\\\""
  else if c = '\\' then "\\\\"
  else if c = '\n' then "\\n"
  else if c = '\r' then "\\r"
  else if c = '\t' then "\\t"
  else if c.toNat = 8 then "\\b"
  else if c.toNat = 12 then "\\f"
  else if c.toNat < 32 then "\\u" ++ jsonHex4 c.toNat
  else if c.toNat < 127 then String.mk [c]
  else if c.toNat < 65536 then "\\u" ++ jsonHex4 c.toNat
  else
    "\\u" ++ jsonHex4 (55296 + (c.toNat - 65536) / 1024) ++
    "\\u" ++ jsonHex4 (56320 + (c.toNat - 65536) % 1024)

/-- A JSON string literal for `s`, as produced by `json.dumps`. -/
def jsonStrLit (s : String) : String :=
  "\"" ++ String.join (s.data.map jsonEscChar) ++ "\""

/-- `json.dumps({"goal": goal, "status": "completed"})` (orchestrator.py
line 86); Python's default separators put a space after each colon and
comma. -/
def etlResultContent (goal : String) : String :=
  "\x7b" ++ jsonStrLit "goal" ++ ": " ++ jsonStrLit goal ++ ", " ++
  jsonStrLit "status" ++ ": " ++ jsonStrLit "completed" ++ "\x7d"

/- ---------------- the planner (orchestrator.py `plan`, lines 52-160) ---------------- -/

/-- The always-first step recording the plan (lines 68-71). -/
def recordPlanStep (goal : String) : TaskStep :=
  { tool := "runs_record_event",
    args := [("event_type", .str "PLAN"), ("details", .dict [("goal", .str goal)])] }

/-- ETL branch, first domain step (lines 77-81). -/
def etlJobStep (goal : String) : TaskStep :=
  { tool := "etl_run_job",
    args := [("payload", .dict [("goal", .str goal), ("pipeline", .str "default")])],
    depends_on := [0] }

/-- ETL branch, artifact step (lines 82-89). -/
def etlArtifactStep (goal : String) (ts : Nat) : TaskStep :=
  { tool := "artifacts_write_text",
    args := [("path", .str ("etl/results/" ++ toString ts ++ ".json")),
             ("content", .str (etlResultContent goal))],
    depends_on := [1] }

/-- Training branch, first domain step (lines 92-99). -/
def trainModelStep : TaskStep :=
  { tool := "train_model",
    args := [("model_name", .str "orchestrator-model"),
             ("config", .dict [("epochs", .int 10), ("batch_size", .int 32)])],
    depends_on := [0] }

/-- Training branch, artifact step (lines 100-107). -/
def trainArtifactStep (goal : String) (ts : Nat) : TaskStep :=
  { tool := "artifacts_write_text",
    args := [("path", .str ("training/logs/" ++ toString ts ++ ".txt")),
             ("content", .str ("Training initiated for goal: " ++ goal))],
    depends_on := [1] }

/-- Deployment branch step (lines 110-118). -/
def deployAgentStep : TaskStep :=
  { tool := "deploy_agent",
    args := [("agent_name", .str "orchestrator-nova"), ("version", .str "v1.0.0"),
             ("config", .dict [("replicas", .int 1), ("memory", .str "2Gi")])],
    depends_on := [0] }

/-- Default branch, first step (lines 122-126). -/
def genericJobStep (goal : String) : TaskStep :=
  { tool := "etl_run_job",
    args := [("payload", .dict [("goal", .str goal), ("type", .str "generic")])],
    depends_on := [0] }

/-- Default branch, artifact step (lines 127-134). -/
def genericArtifactStep (goal : String) (ts : Nat) : TaskStep :=
  { tool := "artifacts_write_text",
    args := [("path", .str ("runs/" ++ toString ts ++ ".txt")),
             ("content", .str ("Goal: " ++ goal ++ "\nStatus: Processing"))],
    depends_on := [1] }

/-- The always-last step recording completion (lines 137-141). -/
def recordDoneStep (goal : String) (deps : List Int) : TaskStep :=
  { tool := "runs_record_event",
    args := [("event_type", .str "DONE"), ("details", .dict [("goal", .str goal)])],
    depends_on := deps }

/-- `Orchestrator.plan` (orchestrator.py lines 52-160): keyword
classification of the lowered goal, a fixed step template per branch, with a
record-plan step prepended and a record-done step appended whose dependency
is the previous step's index when more than one step exists. -/
def plan (goal : String) (ts : Nat) : TaskPlan :=
  let goalLower := strLower goal
  let domain : List TaskStep :=
    if strHasSub goalLower "etl" || strHasSub goalLower "data" || strHasSub goalLower "pipeline" then
      [etlJobStep goal, etlArtifactStep goal ts]
    else if strHasSub goalLower "train" || strHasSub goalLower "model" then
      [trainModelStep, trainArtifactStep goal ts]
    else if strHasSub goalLower "deploy" || strHasSub goalLower "agent" then
      [deployAgentStep]
    else
      [genericJobStep goal, genericArtifactStep goal ts]
  let steps1 := recordPlanStep goal :: domain
  let finalDeps : List Int := if steps1.length > 1 then [(steps1.length : Int) - 1] else []
  let steps := steps1 ++ [recordDoneStep goal finalDeps]
  { goal := goal,
    steps := steps,
    metadata := [("planner_version", .str "1.0.0"),
                 ("estimated_duration_seconds", .int (steps.length * 5))],
    createdAt := ts }

/- ---------------- step execution (orchestrator.py `execute_step`, lines 162-214) ---------------- -/

/-- Outcome of the external capability invocation
`asyncio.wait_for(asyncio.to_thread(tool_func, **args), timeout)`: it
returns a value, the timeout elapses first, or the capability raises. -/
inductive CapResult where
  | ok (r : Value)
  | timeout
  | exc (msg : String)
deriving Repr

/-- `Orchestrator.execute_step` (lines 162-214) as a pure function of the
step, the capability outcome and the history.  `get_tool` raises
`ValueError("Unknown tool: <name>")` for an unregistered tool before the
capability runs; that lands in the generic `except Exception` branch which
appends a failed history entry.  A successful call appends a success entry
and returns the tool's result; `asyncio.TimeoutError` returns a timeout
dict; any other exception appends a failed entry and returns an error dict.
The function is total: no exception escapes `execute_step`. -/
def executeStep (s : TaskStep) (cap : CapResult) (hist : List HistEntry) :
    Value × List HistEntry :=
  if TOOL_NAMES.contains s.tool then
    match cap with
    | .ok r =>
        (r, hist ++ [{ tool := s.tool, args := s.args, result := some r,
                       error := Option.none, status := "success" }])
    | .timeout =>
        (.dict [("status", .str "timeout"), ("tool", .str s.tool),
                ("error", .str ("Step timed out after " ++ toString s.timeout ++ " seconds"))],
         hist)
    | .exc m =>
        (.dict [("status", .str "error"), ("tool", .str s.tool), ("error", .str m)],
         hist ++ [{ tool := s.tool, args := s.args, result := Option.none,
                    error := some m, status := "failed" }])
  else
    let m := "Unknown tool: " ++ s.tool
    (.dict [("status", .str "error"), ("tool", .str s.tool), ("error", .str m)],
     hist ++ [{ tool := s.tool, args := s.args, result := Option.none,
                error := some m, status := "failed" }])

/-- One element of the list returned by `act`: the step's tool name paired
with the result dict of `execute_step`. -/
structure ActResult where
  tool : String
  result : Value
deriving Repr

/-- Loop body of `Orchestrator.act` (lines 216-231), threading the step
index (which selects the capability outcome) and the history.  The source's
only conditional after a step (`status == "error"` on `runs_record_event`)
merely logs a warning and continues, so it has no effect on the returned
results or the history. -/
def actGo (caps : Nat → CapResult) : List TaskStep → Nat → List HistEntry →
    List ActResult × List HistEntry
  | [], _, hist => ([], hist)
  | s :: rest, i, hist =>
      let (r, hist1) := executeStep s (caps i) hist
      let (rs, hist2) := actGo caps rest (i + 1) hist1
      ({ tool := s.tool, result := r } :: rs, hist2)

/-- `Orchestrator.act` (lines 216-231): execute every step of the plan in
array order, collecting one `(tool, result)` pair per step. -/
def act (steps : List TaskStep) (caps : Nat → CapResult) (hist : List HistEntry) :
    List ActResult × List HistEntry :=
  actGo caps steps 0 hist

/- ---------------- plan validation (orchestrator.py `validate_plan`, lines 233-253), typed plans ---------------- -/

/-- The second loop of `validate_plan`: `for i, step in enumerate(steps): for
dep in step.get("depends_on", []): if dep >= i: return False`, with the
running index made explicit. -/
def checkDepsT : Nat → List TaskStep → Bool
  | _, [] => true
  | i, s :: rest => s.depends_on.all (fun d => !decide (d ≥ (i : Int))) && checkDepsT (i + 1) rest

/-- `Orchestrator.validate_plan` (lines 233-253) on a well-formed plan (a
list of steps): every step's tool must be in the registry, and no dependency
index may be `>= ` its step's index. -/
def validatePlan (steps : List TaskStep) : Bool :=
  steps.all (fun s => TOOL_NAMES.contains s.tool) && checkDepsT 0 steps

/- ---------------- execution summary (orchestrator.py `get_execution_summary`, lines 255-269) ---------------- -/

/-- The two shapes `get_execution_summary` can return: the
`{"message": "No execution history"}` marker, or the statistics dict. -/
inductive Summary where
  | noHistory
  | stats (total successful failed : Nat) (successRate : ℚ) (last : Option HistEntry)
deriving Repr

/-- `Orchestrator.get_execution_summary` (lines 255-269): the no-history
marker when the history is empty, else counts over entry statuses, the
rate `successful / total` (the inner `if ... else 0` guard of line 267
mirrored as-is), and the last entry (`history[-1] if history else None`). -/
def getExecutionSummary (hist : List HistEntry) : Summary :=
  if hist.isEmpty then .noHistory
  else
    let successful := hist.countP (fun h => h.status == "success")
    let failed := hist.countP (fun h => h.status == "failed")
    .stats hist.length successful failed
      (if !hist.isEmpty then (successful : ℚ) / (hist.length : ℚ) else 0)
      hist.getLast?

/- ---------------- validate_plan on arbitrary dicts (Python dynamic semantics, for lines 233-253) ---------------- -/

/-- Python subscripting `v[key]` with a string key: dict lookup
(`KeyError` when absent), `TypeError` on every other value.  Errors are
represented uniformly by `Except.error ()`, since `validate_plan` catches
every `Exception` alike. -/
def pySubscript (v : Value) (key : String) : Except Unit Value :=
  match v with
  | .dict kvs =>
      match kvs.lookup key with
      | some w => .ok w
      | Option.none => .error ()
  | _ => .error ()

/-- Python iteration `for x in v`: lists yield their items, strings their
one-character strings, dicts their keys; ints, bools and None raise
`TypeError`. -/
def pyIter (v : Value) : Except Unit (List Value) :=
  match v with
  | .list items => .ok items
  | .str s => .ok (s.data.map (fun c => .str (String.mk [c])))
  | .dict kvs => .ok (kvs.map (fun kv => .str kv.1))
  | _ => .error ()

/-- Python `v.get(key, default)`: only dicts have `.get`; any other value
raises `AttributeError`. -/
def pyGet (v : Value) (key : String) (default : Value) : Except Unit Value :=
  match v with
  | .dict kvs =>
      match kvs.lookup key with
      | some w => .ok w
      | Option.none => .ok default
  | _ => .error ()

/-- Python `v not in self.tools` (negated here): the registry's keys are the
tool-name strings; non-strings that are hashable (ints, bools, None) are
simply absent; lists and dicts are unhashable and raise `TypeError`. -/
def pyInTools (v : Value) : Except Unit Bool :=
  match v with
  | .str s => .ok (TOOL_NAMES.contains s)
  | .int _ => .ok false
  | .bool _ => .ok false
  | .none => .ok false
  | .list _ => .error ()
  | .dict _ => .error ()

/-- Python `dep >= i` against the loop index: ints (and bools, which are
ints) compare; every other value raises `TypeError`. -/
def pyGeIdx (v : Value) (i : Nat) : Except Unit Bool :=
  match v with
  | .int d => .ok (decide (d ≥ (i : Int)))
  | .bool b => .ok (decide ((if b then (1 : Int) else 0) ≥ (i : Int)))
  | _ => .error ()

/-- First loop of `validate_plan` (lines 237-240): return `false` on the
first unregistered tool, propagate any exception. -/
def checkToolsDyn : List Value → Except Unit Bool
  | [] => .ok true
  | s :: rest => do
      let t ← pySubscript s "tool"
      let b ← pyInTools t
      if b then checkToolsDyn rest else .ok false

/-- Inner loop over one step's `depends_on` (lines 244-247): `false` on the
first `dep >= i`. -/
def checkDepListDyn (i : Nat) : List Value → Except Unit Bool
  | [] => .ok true
  | d :: rest => do
      let ge ← pyGeIdx d i
      if ge then .ok false else checkDepListDyn i rest

/-- Second loop of `validate_plan` (lines 243-247), with the `enumerate`
index explicit. -/
def checkDepsDyn : Nat → List Value → Except Unit Bool
  | _, [] => .ok true
  | i, s :: rest => do
      let ds ← pyGet s "depends_on" (.list [])
      let items ← pyIter ds
      let ok ← checkDepListDyn i items
      if ok then checkDepsDyn (i + 1) rest else .ok false

/-- Body of the `try:` block of `validate_plan` (lines 235-249); exceptions
propagate as `Except.error`. -/
def validatePlanCore (plan : Value) : Except Unit Bool := do
  let steps ← pySubscript plan "steps"
  let items ← pyIter steps
  let ok1 ← checkToolsDyn items
  if ok1 then
    let steps2 ← pySubscript plan "steps"
    let items2 ← pyIter steps2
    let ok2 ← checkDepsDyn 0 items2
    if ok2 then .ok true else .ok false
  else .ok false

/-- `Orchestrator.validate_plan` (lines 233-253) on an arbitrary value: the
`except Exception:` handler turns every exception into `False`. -/
def validatePlanDyn (plan : Value) : Bool :=
  match validatePlanCore plan with
  | .ok b => b
  | .error _ => false

/- ---------------- timestamp erasure (for the determinism property) ---------------- -/

/-- Erase the timestamp-derived argument values of a step: the only
timestamp-dependent data the planner produces are the artifact `"path"`
argument values; everything else (tool, dependencies, timeout, the other
arguments) is kept. -/
def stripTs (s : TaskStep) : TaskStep :=
  { s with args := s.args.map (fun kv => if kv.1 == "path" then (kv.1, Value.str "") else kv) }

/- ---------------- helper lemmas ---------------- -/

theorem checkDepsT_eq_true_iff (steps : List TaskStep) : ∀ n : Nat, checkDepsT n steps = true ↔
    ∀ i s, steps.get? i = some s → ∀ d ∈ s.depends_on, d < (n : Int) + i := by
  induction steps with
  | nil => intro n; simp [checkDepsT]
  | cons s rest ih =>
    intro n
    simp only [checkDepsT, Bool.and_eq_true, List.all_eq_true, Bool.not_eq_true',
      decide_eq_false_iff_not, not_le, ih (n + 1)]
    constructor
    · rintro ⟨h1, h2⟩ i t hget d hd
      cases i with
      | zero =>
        simp only [List.get?] at hget
        cases hget
        have := h1 d hd
        push_cast
        omega
      | succ j =>
        simp only [List.get?] at hget
        have := h2 j t hget d hd
        push_cast at this ⊢
        omega
    · intro h
      refine ⟨fun d hd => ?_, fun j t hget d hd => ?_⟩
      · have := h 0 s rfl d hd
        push_cast at this
        omega
      · have := h (j + 1) t hget d hd
        push_cast at this ⊢
        omega

theorem validatePlan_eq_true_iff (steps : List TaskStep) : validatePlan steps = true ↔
    (∀ s ∈ steps, TOOL_NAMES.contains s.tool = true) ∧
    (∀ i s, steps.get? i = some s → ∀ d ∈ s.depends_on, d < (i : Int)) := by
  simp only [validatePlan, Bool.and_eq_true, List.all_eq_true, checkDepsT_eq_true_iff]
  constructor
  · rintro ⟨h1, h2⟩
    exact ⟨h1, fun i s hget d hd => by have := h2 i s hget d hd; push_cast at this; omega⟩
  · rintro ⟨h1, h2⟩
    exact ⟨h1, fun i s hget d hd => by have := h2 i s hget d hd; push_cast; omega⟩

/- ---------------- claim theorems ---------------- -/

/-- C4: `validate_plan` returns `False` exactly when some step's tool is
absent from the registry or some step at index `i` carries a dependency
`dep ≥ i` (self-references and out-of-range indices included), and returns
`True` for every plan all of whose tools are registered and all of whose
dependency indices are strictly below their own step's index. -/
theorem c4_validate_plan_characterisation (steps : List TaskStep) :
    (validatePlan steps = false ↔
      ((∃ s ∈ steps, TOOL_NAMES.contains s.tool = false) ∨
       (∃ i s, steps.get? i = some s ∧ ∃ d ∈ s.depends_on, (i : Int) ≤ d))) ∧
    (validatePlan steps = true ↔
      ((∀ s ∈ steps, TOOL_NAMES.contains s.tool = true) ∧
       (∀ i s, steps.get? i = some s → ∀ d ∈ s.depends_on, d < (i : Int)))) := by
  refine ⟨?_, validatePlan_eq_true_iff steps⟩
  have h1 : ¬(∀ s ∈ steps, TOOL_NAMES.contains s.tool = true) ↔
      (∃ s ∈ steps, TOOL_NAMES.contains s.tool = false) := by
    push_neg
    simp only [Bool.not_eq_true]
  have h2 : ¬(∀ i s, steps.get? i = some s → ∀ d ∈ s.depends_on, d < (i : Int)) ↔
      (∃ i s, steps.get? i = some s ∧ ∃ d ∈ s.depends_on, (i : Int) ≤ d) := by
    push_neg
    simp only [not_lt]
  rw [← Bool.not_eq_true, validatePlan_eq_true_iff, not_and_or, h1, h2]

/-- Witness for C4 at concrete plans: a self-referencing dependency is
rejected, and a registered two-step plan with a backward dependency is
accepted. -/
theorem c4_witness :
    validatePlan [{ tool := "etl_run_job", depends_on := [0] }] = false ∧
    validatePlan [{ tool := "runs_record_event" }, { tool := "etl_run_job", depends_on := [0] }] = true :=
  ⟨(c4_validate_plan_characterisation _).1.mpr
      (Or.inr ⟨0, _, rfl, 0, by simp, by norm_num⟩),
   (c4_validate_plan_characterisation _).2.mpr
      ⟨by intro s hs; fin_cases hs <;> rfl,
       by
        intro i s hget d hd
        match i, hget with
        | 0, h => cases h; simp at hd
        | 1, h => cases h; simp at hd; omega
        | (n + 2), h => simp [List.get?] at h⟩⟩

/-- Insert an extra dependency index `d` at the front of step `k`'s
`depends_on` (identity when `k` is out of range): the mutation the implicit
claim about negative indices performs on a plan. -/
def addNegDep (k : Nat) (d : Int) : List TaskStep → List TaskStep
  | [] => []
  | s :: rest =>
      match k with
      | 0 => { s with depends_on := d :: s.depends_on } :: rest
      | k' + 1 => s :: addNegDep k' d rest

theorem checkDepsT_addNegDep (d : Int) (hd : d < 0) :
    ∀ (steps : List TaskStep) (k n : Nat),
      checkDepsT n steps = true → checkDepsT n (addNegDep k d steps) = true := by
  intro steps
  induction steps with
  | nil => intro k n h; simpa [addNegDep] using h
  | cons s rest ih =>
    intro k n h
    simp only [checkDepsT, Bool.and_eq_true, List.all_eq_true] at h
    cases k with
    | zero =>
      simp only [addNegDep, checkDepsT, Bool.and_eq_true, List.all_eq_true]
      refine ⟨?_, h.2⟩
      intro x hx
      rcases List.mem_cons.mp hx with rfl | hx
      · simp only [Bool.not_eq_true', decide_eq_false_iff_not, not_le]
        omega
      · exact h.1 x hx
    | succ k' =>
      simp only [addNegDep, checkDepsT, Bool.and_eq_true, List.all_eq_true]
      exact ⟨h.1, ih k' (n + 1) h.2⟩

theorem allTools_addNegDep (k : Nat) (d : Int) :
    ∀ steps : List TaskStep,
      steps.all (fun s => TOOL_NAMES.contains s.tool) = true →
      (addNegDep k d steps).all (fun s => TOOL_NAMES.contains s.tool) = true := by
  induction k with
  | zero =>
    intro steps h
    cases steps with
    | nil => exact h
    | cons s rest =>
      simp only [addNegDep, List.all_cons, Bool.and_eq_true] at h ⊢
      exact h
  | succ k' ih =>
    intro steps h
    cases steps with
    | nil => exact h
    | cons s rest =>
      simp only [addNegDep, List.all_cons, Bool.and_eq_true] at h ⊢
      exact ⟨h.1, ih rest h.2⟩

/-- C9: `validate_plan` accepts negative dependency indices.  The only
dependency check is `dep >= i`, so extending any step of a validating plan
with a negative dependency (for instance `-1`), which does not reference a
strictly earlier step, still yields `validate_plan = True`. -/
theorem c9_negative_dep_accepted (steps : List TaskStep) (k : Nat) (d : Int)
    (hd : d < 0) (h : validatePlan steps = true) :
    validatePlan (addNegDep k d steps) = true := by
  simp only [validatePlan, Bool.and_eq_true] at h ⊢
  exact ⟨allTools_addNegDep k d steps h.1, checkDepsT_addNegDep d hd steps k 0 h.2⟩

/-- Witness for C9: adding a `-1` dependency to the single step of a
registered one-step plan still validates. -/
theorem c9_witness :
    validatePlan (addNegDep 0 (-1) [{ tool := "etl_run_job" }]) = true :=
  c9_negative_dep_accepted [{ tool := "etl_run_job" }] 0 (-1) (by norm_num) (by decide)

/-- C1: every plan the planner produces has a non-empty step list, starts
and ends with `runs_record_event`, its last step (like every step) only
depends on strictly earlier indices, every tool is registered, and
consequently `validate_plan` accepts it. -/
theorem c1_plan_always_validates (goal : String) (ts : Nat) :
    (plan goal ts).steps ≠ [] ∧
    ((plan goal ts).steps.head?.map TaskStep.tool) = some "runs_record_event" ∧
    ((plan goal ts).steps.getLast?.map TaskStep.tool) = some "runs_record_event" ∧
    (∀ i s, (plan goal ts).steps.get? i = some s → ∀ d ∈ s.depends_on, d < (i : Int)) ∧
    (∀ s ∈ (plan goal ts).steps, TOOL_NAMES.contains s.tool = true) ∧
    validatePlan (plan goal ts).steps = true := by
  have hv : validatePlan (plan goal ts).steps = true := by
    simp only [plan]
    rcases Bool.eq_false_or_eq_true
        (strHasSub (strLower goal) "etl" || strHasSub (strLower goal) "data" ||
          strHasSub (strLower goal) "pipeline") with h1 | h1 <;>
      rcases Bool.eq_false_or_eq_true
          (strHasSub (strLower goal) "train" || strHasSub (strLower goal) "model") with h2 | h2 <;>
      rcases Bool.eq_false_or_eq_true
          (strHasSub (strLower goal) "deploy" || strHasSub (strLower goal) "agent") with h3 | h3 <;>
      simp only [h1, h2, h3, if_true, if_false, Bool.false_eq_true, Bool.true_eq_false] <;> rfl
  have hiff := (validatePlan_eq_true_iff (plan goal ts).steps).mp hv
  refine ⟨?_, ?_, ?_, hiff.2, hiff.1, hv⟩ <;>
    · simp only [plan]
      rcases Bool.eq_false_or_eq_true
          (strHasSub (strLower goal) "etl" || strHasSub (strLower goal) "data" ||
            strHasSub (strLower goal) "pipeline") with h1 | h1 <;>
        rcases Bool.eq_false_or_eq_true
            (strHasSub (strLower goal) "train" || strHasSub (strLower goal) "model") with h2 | h2 <;>
        rcases Bool.eq_false_or_eq_true
            (strHasSub (strLower goal) "deploy" || strHasSub (strLower goal) "agent") with h3 | h3 <;>
        simp only [h1, h2, h3, if_true, if_false, Bool.false_eq_true, Bool.true_eq_false] <;>
        simp [recordPlanStep, recordDoneStep]

/-- Witness for C1 at a concrete goal and timestamp. -/
theorem c1_witness :
    validatePlan (plan "train a model" 5).steps = true ∧ (plan "train a model" 5).steps ≠ [] :=
  ⟨(c1_plan_always_validates "train a model" 5).2.2.2.2.2,
   (c1_plan_always_validates "train a model" 5).1⟩

/-- C5: classification is first-match in the fixed order ETL, training,
deployment, generic.  Any goal whose lowered text contains an ETL keyword
gets the ETL template (`etl_run_job` then `artifacts_write_text`) even when
training or deployment keywords are also present, and the empty goal gets
the generic template without failing. -/
theorem c5_classification_priority (goal : String) (ts : Nat) :
    ((strHasSub (strLower goal) "etl" || strHasSub (strLower goal) "data" ||
        strHasSub (strLower goal) "pipeline") = true →
      (plan goal ts).steps =
        [recordPlanStep goal, etlJobStep goal, etlArtifactStep goal ts,
         recordDoneStep goal [2]]) ∧
    (plan "" ts).steps =
      [recordPlanStep "", genericJobStep "", genericArtifactStep "" ts,
       recordDoneStep "" [2]] := by
  constructor
  · intro h
    simp only [plan, h, if_true]
    rfl
  · rfl

/-- Witness for C5: a goal containing ETL, training and deployment keywords
at once is classified as ETL. -/
theorem c5_witness :
    (plan "etl train deploy" 7).steps =
      [recordPlanStep "etl train deploy", etlJobStep "etl train deploy",
       etlArtifactStep "etl train deploy" 7, recordDoneStep "etl train deploy" [2]] :=
  (c5_classification_priority "etl train deploy" 7).1 rfl

/-- C8: planning is deterministic: two runs of the planner on the same goal
differ at most in the timestamp-derived data (`created_at` and the artifact
`"path"` argument values), so after erasing those the step sequences are
identical. -/
theorem c8_plan_deterministic (goal : String) (ts1 ts2 : Nat) :
    ((plan goal ts1).steps.map stripTs) = ((plan goal ts2).steps.map stripTs) := by
  simp only [plan]
  rcases Bool.eq_false_or_eq_true
      (strHasSub (strLower goal) "etl" || strHasSub (strLower goal) "data" ||
        strHasSub (strLower goal) "pipeline") with h1 | h1 <;>
    rcases Bool.eq_false_or_eq_true
        (strHasSub (strLower goal) "train" || strHasSub (strLower goal) "model") with h2 | h2 <;>
    rcases Bool.eq_false_or_eq_true
        (strHasSub (strLower goal) "deploy" || strHasSub (strLower goal) "agent") with h3 | h3 <;>
    simp only [h1, h2, h3, if_true, if_false, Bool.false_eq_true, Bool.true_eq_false] <;>
    rfl

theorem actGo_tools (caps : Nat → CapResult) :
    ∀ (steps : List TaskStep) (i : Nat) (hist : List HistEntry),
      ((actGo caps steps i hist).1).map ActResult.tool = steps.map TaskStep.tool := by
  intro steps
  induction steps with
  | nil => intro i hist; rfl
  | cons s rest ih =>
    intro i hist
    simp only [actGo, List.map_cons]
    rw [ih]

/-- C3: `act` attempts every step of the plan and returns exactly one
`(tool, result)` pair per step, in plan order, whatever the per-step
capability outcomes (successes, timeouts or raised exceptions) are; the
embedding's `act` is a total function of those outcomes, which models that
per-step runtime errors are caught inside `execute_step` and never
propagate out of `act`. -/
theorem c3_act_attempts_every_step (steps : List TaskStep) (caps : Nat → CapResult)
    (hist : List HistEntry) :
    ((act steps caps hist).1).map ActResult.tool = steps.map TaskStep.tool ∧
    ((act steps caps hist).1).length = steps.length := by
  have h := actGo_tools caps steps 0 hist
  refine ⟨h, ?_⟩
  have := congrArg List.length h
  simpa using this

/-- Counterexample to C2 as stated: a step of a registered tool whose
capability times out leaves the execution history empty — the timeout
branch of `execute_step` (orchestrator.py lines 189-195) returns its
outcome dict without appending a history entry, unlike the success and
failure branches. -/
theorem c2_counterexample :
    (executeStep { tool := "etl_run_job" } CapResult.timeout []).2 = [] := rfl

/-- C2 (amended): a timed-out step yields a non-fatal structured outcome
with status `"timeout"`, but contributes no entry to the execution history;
only success and failure outcomes append entries. -/
theorem c2_timeout_not_recorded (s : TaskStep) (hist : List HistEntry) (r : Value) (m : String)
    (h : TOOL_NAMES.contains s.tool = true) :
    (executeStep s CapResult.timeout hist).2 = hist ∧
    (executeStep s CapResult.timeout hist).1.lookup "status" = some (.str "timeout") ∧
    (executeStep s (CapResult.ok r) hist).2 =
      hist ++ [{ tool := s.tool, args := s.args, result := some r,
                 error := Option.none, status := "success" }] ∧
    (executeStep s (CapResult.exc m) hist).2 =
      hist ++ [{ tool := s.tool, args := s.args, result := Option.none,
                 error := some m, status := "failed" }] := by
  have hmem : s.tool ∈ TOOL_NAMES := by simpa using h
  simp [executeStep, hmem, Value.lookup]

/-- Witness for C2 (amended) on a concrete step, history, result and
exception message. -/
theorem c2_witness :
    (executeStep { tool := "train_model" } CapResult.timeout
        [{ tool := "etl_run_job", args := [], result := some (.int 1),
           error := Option.none, status := "success" }]).2 =
      [{ tool := "etl_run_job", args := [], result := some (.int 1),
         error := Option.none, status := "success" }] ∧
    (executeStep { tool := "train_model" } CapResult.timeout
        [{ tool := "etl_run_job", args := [], result := some (.int 1),
           error := Option.none, status := "success" }]).1.lookup "status" =
      some (.str "timeout") :=
  ⟨(c2_timeout_not_recorded { tool := "train_model" } _ (.int 0) "boom" (by decide)).1,
   (c2_timeout_not_recorded { tool := "train_model" } _ (.int 0) "boom" (by decide)).2.1⟩

/-- Counterexample to C6 as stated: for a registered step with
`timeout = 1` the error field of the timeout outcome is
`"Step timed out after 1 seconds"` (orchestrator.py line 194), not
`"timed out after 1s"`. -/
theorem c6_counterexample :
    (executeStep { tool := "etl_run_job", timeout := 1 } CapResult.timeout []).1.lookup "error" =
      some (.str "Step timed out after 1 seconds") ∧
    (executeStep { tool := "etl_run_job", timeout := 1 } CapResult.timeout []).1.lookup "error" ≠
      some (.str "timed out after 1s") := by
  constructor
  · rfl
  · intro h
    rw [show (executeStep { tool := "etl_run_job", timeout := 1 } CapResult.timeout []).1.lookup "error" =
          some (.str "Step timed out after 1 seconds") from rfl] at h
    have hs := Option.some.inj h
    injection hs with h2
    exact absurd h2 (by decide)

/-- C6 (amended): when a registered step's capability does not finish
within the timeout, `execute_step` returns the dict with status
`"timeout"`, the tool name, and error `"Step timed out after <timeout>
seconds"`; the function is total, so the timeout raises nothing out of the
run. -/
theorem c6_timeout_outcome (s : TaskStep) (hist : List HistEntry)
    (h : TOOL_NAMES.contains s.tool = true) :
    (executeStep s CapResult.timeout hist).1 =
      .dict [("status", .str "timeout"), ("tool", .str s.tool),
             ("error", .str ("Step timed out after " ++ toString s.timeout ++ " seconds"))] := by
  have hmem : s.tool ∈ TOOL_NAMES := by simpa using h
  simp [executeStep, hmem]

/-- Witness for C6 (amended) at a concrete step with `timeout = 1`. -/
theorem c6_witness :
    (executeStep { tool := "etl_run_job", timeout := 1 } CapResult.timeout
        [{ tool := "etl_run_job", args := [], result := Option.none,
           error := some "x", status := "failed" }]).1 =
      .dict [("status", .str "timeout"), ("tool", .str "etl_run_job"),
             ("error", .str "Step timed out after 1 seconds")] :=
  c6_timeout_outcome { tool := "etl_run_job", timeout := 1 } _ (by decide)

/-- C7: on an empty history `get_execution_summary` returns the distinct
no-history marker (so the `successful / total` division is never reached),
and otherwise it returns the history length as total, the success and
failure counts over entry statuses, the rate `successful / total`, and the
last entry. -/
theorem c7_summary_characterisation (hist : List HistEntry) :
    (hist = [] → getExecutionSummary hist = Summary.noHistory) ∧
    (hist ≠ [] → getExecutionSummary hist =
      Summary.stats hist.length
        (hist.countP (fun e => e.status == "success"))
        (hist.countP (fun e => e.status == "failed"))
        ((hist.countP (fun e => e.status == "success") : ℚ) / (hist.length : ℚ))
        hist.getLast?) := by
  constructor
  · rintro rfl
    rfl
  · intro h
    have he : hist.isEmpty = false := by
      simpa [List.isEmpty_iff] using h
    simp [getExecutionSummary, he]

/-- Witness for C7 at the empty history and at a concrete one-entry
history. -/
theorem c7_witness :
    getExecutionSummary [] = Summary.noHistory ∧
    getExecutionSummary
        [{ tool := "etl_run_job", args := [], result := some (.int 1),
           error := Option.none, status := "success" }] =
      Summary.stats 1 1 0 ((1 : ℚ) / (1 : ℚ))
        (some { tool := "etl_run_job", args := [], result := some (.int 1),
                error := Option.none, status := "success" }) := by
  refine ⟨(c7_summary_characterisation []).1 rfl, ?_⟩
  have h := (c7_summary_characterisation
      [{ tool := "etl_run_job", args := [], result := some (.int 1),
         error := Option.none, status := "success" }]).2 (by simp)
  rw [h]
  norm_num
  decide

theorem exceptBind_ok {α β ε : Type} (a : α) (f : α → Except ε β) :
    (Except.ok a >>= f : Except ε β) = f a := rfl

theorem exceptBind_error {α β ε : Type} (e : ε) (f : α → Except ε β) :
    ((Except.error e : Except ε α) >>= f) = Except.error e := rfl

theorem checkToolsDyn_of_missing_tool :
    ∀ (items : List Value) (s : Value), s ∈ items → pySubscript s "tool" = .error () →
      checkToolsDyn items ≠ .ok true := by
  intro items
  induction items with
  | nil => intro s hs; simp at hs
  | cons a rest ih =>
    intro s hs herr
    rcases List.mem_cons.mp hs with rfl | hs
    · simp [checkToolsDyn, herr, exceptBind_error]
    · cases ha : pySubscript a "tool" with
      | error e =>
        simp [checkToolsDyn, ha, exceptBind_error]
      | ok t =>
        cases hb : pyInTools t with
        | error e =>
          simp [checkToolsDyn, ha, hb, exceptBind_ok, exceptBind_error]
        | ok b =>
          cases b with
          | true =>
            simpa [checkToolsDyn, ha, hb, exceptBind_ok] using ih s hs herr
          | false =>
            simp [checkToolsDyn, ha, hb, exceptBind_ok]

/-- C10: `validate_plan` never raises and returns the boolean `False` on
malformed plans: the `except Exception:` handler makes `validatePlanDyn` a
total `Bool`-valued function (no exception escapes), and in particular a
plan value without a `"steps"` entry, or whose steps contain an element
without a `"tool"` entry, yields `False`. -/
theorem c10_validate_plan_never_raises (p : Value) :
    (pySubscript p "steps" = .error () → validatePlanDyn p = false) ∧
    (∀ steps items s, pySubscript p "steps" = .ok steps → pyIter steps = .ok items →
      s ∈ items → pySubscript s "tool" = .error () → validatePlanDyn p = false) := by
  constructor
  · intro h
    simp [validatePlanDyn, validatePlanCore, h, exceptBind_error]
  · intro steps items s hsub hiter hmem htool
    have hne := checkToolsDyn_of_missing_tool items s hmem htool
    cases hct : checkToolsDyn items with
    | error e =>
      simp [validatePlanDyn, validatePlanCore, hsub, hiter, hct,
        exceptBind_ok, exceptBind_error]
    | ok b =>
      cases b with
      | true => exact absurd hct hne
      | false =>
        simp [validatePlanDyn, validatePlanCore, hsub, hiter, hct, exceptBind_ok]

/-- Witness for C10: a dict without a `"steps"` key, and a plan whose
single step has no `"tool"` key, are both rejected with `False`. -/
theorem c10_witness :
    validatePlanDyn (.dict [("goal", .str "x")]) = false ∧
    validatePlanDyn (.dict [("steps", .list [.dict [("name", .str "etl_run_job")]])]) = false :=
  ⟨(c10_validate_plan_never_raises (.dict [("goal", .str "x")])).1 rfl,
   (c10_validate_plan_never_raises
        (.dict [("steps", .list [.dict [("name", .str "etl_run_job")]])])).2
      (.list [.dict [("name", .str "etl_run_job")]])
      [.dict [("name", .str "etl_run_job")]]
      (.dict [("name", .str "etl_run_job")])
      rfl rfl (List.mem_singleton.mpr rfl) rfl⟩
